import Mathlib

/-!
Verification of the set-expression tokenizer and recursive-descent
parser-evaluator of `src/main.py` (class `SetVisualizer`).

The embedding mirrors the source functions `_tokenize`, `_parse_expression`,
`_parse_or`, `_parse_diff`, `_parse_xor`, `_parse_and`, `_parse_not`,
`_parse_atom`, `_safe_evaluate` and `evaluate_expression`.  Membership
vectors (numpy boolean masks over the point grid) are `List Bool`; the
membership map (the `masks` dict with keys `'A'`, `'B'`, `'C'`) is a
function `Char → Option (List Bool)`; elementwise numpy operations
`|`, `&`, `^`, `& ~` become `List.zipWith` of the boolean operations.
Python exceptions become `Except.error` with a `ParseError` value named
after the raised message.  The recursion of the mutually recursive parser
is made structural with a fuel argument; `safe_evaluate` supplies fuel
`8 * tokens.length + 8`, which the call tree can never exhaust (each
nesting level either descends one of the seven grammar tiers or consumes
a token), so the artificial `OutOfFuel` branch is unreachable there.
-/

namespace EulerRings

/-- Tokens produced by `_tokenize`: the Python implementation uses the
strings `'A'`/`'B'`/`'C'`, `'NOT'`, `'OR'`, `'AND'`, `'XOR'`, `'DIFF'`,
`'('`, `')'`. -/
inductive Token where
  | SetRef (c : Char)
  | NOT
  | OR
  | AND
  | XOR
  | DIFF
  | LPAREN
  | RPAREN
deriving DecidableEq, Repr

/-- The `ValueError`s raised by the source, named after their messages:
`"Unknown character: {c}"`, `"Unexpected end of expression"`,
`"Missing closing parenthesis"`, `"Unexpected token: {t}"` (each carries
exactly the data interpolated into the message).  `OutOfFuel` is an
artifact of the fuel-based embedding of the recursion and is unreachable
for the fuel that `safe_evaluate` supplies. -/
inductive ParseError where
  | UnknownCharacter (c : Char)
  | UnexpectedEndOfExpression
  | MissingClosingParenthesis
  | UnexpectedToken (t : Token)
  | OutOfFuel
deriving DecidableEq, Repr

/-- A membership vector (numpy boolean mask over the point grid). -/
abbrev Mask := List Bool

/-- The membership map: the `masks` dict of `evaluate_expression`,
mapping a set name to its membership vector. -/
abbrev Masks := Char → Option Mask

/-- `_tokenize`: convert the expression characters into tokens, mirroring
the source's if-chain (whitespace skipped; `'A'`/`'B'`/`'C'` to `SetRef`;
`.` to `NOT`; `U` to `OR`; `&` to `AND`; `^` to `XOR`; `-` to `DIFF`;
parentheses; anything else raises `Unknown character`). -/
def tokenize : List Char → Except ParseError (List Token)
  | [] => .ok []
  | c :: rest =>
    if c.isWhitespace then
      tokenize rest
    else if c = 'A' || c = 'B' || c = 'C' then
      (tokenize rest).map (fun ts => Token.SetRef c :: ts)
    else if c = '.' then
      (tokenize rest).map (fun ts => Token.NOT :: ts)
    else if c = 'U' then
      (tokenize rest).map (fun ts => Token.OR :: ts)
    else if c = '&' then
      (tokenize rest).map (fun ts => Token.AND :: ts)
    else if c = '^' then
      (tokenize rest).map (fun ts => Token.XOR :: ts)
    else if c = '-' then
      (tokenize rest).map (fun ts => Token.DIFF :: ts)
    else if c = '(' then
      (tokenize rest).map (fun ts => Token.LPAREN :: ts)
    else if c = ')' then
      (tokenize rest).map (fun ts => Token.RPAREN :: ts)
    else
      .error (ParseError.UnknownCharacter c)

mutual

/-- `_parse_expression`: delegates to `_parse_or` (the loosest tier). -/
def parse_expression : Nat → List Token → Nat → Masks → Mask → Except ParseError (Mask × Nat)
  | 0, _, _, _, _ => .error ParseError.OutOfFuel
  | fuel + 1, tokens, pos, masks, universal =>
    parse_or fuel tokens pos masks universal
termination_by structural fuel _ _ _ _ => fuel

/-- `_parse_or`: parse a `_parse_diff` operand, then fold the `while`
loop over `OR` tokens (`left = left | right`). -/
def parse_or : Nat → List Token → Nat → Masks → Mask → Except ParseError (Mask × Nat)
  | 0, _, _, _, _ => .error ParseError.OutOfFuel
  | fuel + 1, tokens, pos, masks, universal => do
    let (left, pos1) ← parse_diff fuel tokens pos masks universal
    or_loop fuel tokens pos1 masks universal left
termination_by structural fuel _ _ _ _ => fuel

/-- The `while pos < len(tokens) and tokens[pos] == 'OR'` loop of
`_parse_or`. -/
def or_loop : Nat → List Token → Nat → Masks → Mask → Mask → Except ParseError (Mask × Nat)
  | 0, _, _, _, _, _ => .error ParseError.OutOfFuel
  | fuel + 1, tokens, pos, masks, universal, left =>
    match tokens[pos]? with
    | some Token.OR => do
      let (right, pos1) ← parse_diff fuel tokens (pos + 1) masks universal
      or_loop fuel tokens pos1 masks universal (List.zipWith (fun x y => x || y) left right)
    | _ => .ok (left, pos)
termination_by structural fuel _ _ _ _ _ => fuel

/-- `_parse_diff`: parse a `_parse_xor` operand, then fold the `while`
loop over `DIFF` tokens (`left = left & ~right`). -/
def parse_diff : Nat → List Token → Nat → Masks → Mask → Except ParseError (Mask × Nat)
  | 0, _, _, _, _ => .error ParseError.OutOfFuel
  | fuel + 1, tokens, pos, masks, universal => do
    let (left, pos1) ← parse_xor fuel tokens pos masks universal
    diff_loop fuel tokens pos1 masks universal left
termination_by structural fuel _ _ _ _ => fuel

/-- The `while pos < len(tokens) and tokens[pos] == 'DIFF'` loop of
`_parse_diff`. -/
def diff_loop : Nat → List Token → Nat → Masks → Mask → Mask → Except ParseError (Mask × Nat)
  | 0, _, _, _, _, _ => .error ParseError.OutOfFuel
  | fuel + 1, tokens, pos, masks, universal, left =>
    match tokens[pos]? with
    | some Token.DIFF => do
      let (right, pos1) ← parse_xor fuel tokens (pos + 1) masks universal
      diff_loop fuel tokens pos1 masks universal (List.zipWith (fun x y => x && !y) left right)
    | _ => .ok (left, pos)
termination_by structural fuel _ _ _ _ _ => fuel

/-- `_parse_xor`: parse a `_parse_and` operand, then fold the `while`
loop over `XOR` tokens (`left = left ^ right`). -/
def parse_xor : Nat → List Token → Nat → Masks → Mask → Except ParseError (Mask × Nat)
  | 0, _, _, _, _ => .error ParseError.OutOfFuel
  | fuel + 1, tokens, pos, masks, universal => do
    let (left, pos1) ← parse_and fuel tokens pos masks universal
    xor_loop fuel tokens pos1 masks universal left
termination_by structural fuel _ _ _ _ => fuel

/-- The `while pos < len(tokens) and tokens[pos] == 'XOR'` loop of
`_parse_xor`. -/
def xor_loop : Nat → List Token → Nat → Masks → Mask → Mask → Except ParseError (Mask × Nat)
  | 0, _, _, _, _, _ => .error ParseError.OutOfFuel
  | fuel + 1, tokens, pos, masks, universal, left =>
    match tokens[pos]? with
    | some Token.XOR => do
      let (right, pos1) ← parse_and fuel tokens (pos + 1) masks universal
      xor_loop fuel tokens pos1 masks universal (List.zipWith (fun x y => Bool.xor x y) left right)
    | _ => .ok (left, pos)
termination_by structural fuel _ _ _ _ _ => fuel

/-- `_parse_and`: parse a `_parse_not` operand, then fold the `while`
loop over `AND` tokens (`left = left & right`). -/
def parse_and : Nat → List Token → Nat → Masks → Mask → Except ParseError (Mask × Nat)
  | 0, _, _, _, _ => .error ParseError.OutOfFuel
  | fuel + 1, tokens, pos, masks, universal => do
    let (left, pos1) ← parse_not fuel tokens pos masks universal
    and_loop fuel tokens pos1 masks universal left
termination_by structural fuel _ _ _ _ => fuel

/-- The `while pos < len(tokens) and tokens[pos] == 'AND'` loop of
`_parse_and`. -/
def and_loop : Nat → List Token → Nat → Masks → Mask → Mask → Except ParseError (Mask × Nat)
  | 0, _, _, _, _, _ => .error ParseError.OutOfFuel
  | fuel + 1, tokens, pos, masks, universal, left =>
    match tokens[pos]? with
    | some Token.AND => do
      let (right, pos1) ← parse_not fuel tokens (pos + 1) masks universal
      and_loop fuel tokens pos1 masks universal (List.zipWith (fun x y => x && y) left right)
    | _ => .ok (left, pos)
termination_by structural fuel _ _ _ _ _ => fuel

/-- `_parse_not`: parse an atom; if the next token is `NOT` (the postfix
`.`), consume it once and return `universal & ~operand`. -/
def parse_not : Nat → List Token → Nat → Masks → Mask → Except ParseError (Mask × Nat)
  | 0, _, _, _, _ => .error ParseError.OutOfFuel
  | fuel + 1, tokens, pos, masks, universal => do
    let (operand, pos1) ← parse_atom fuel tokens pos masks universal
    match tokens[pos1]? with
    | some Token.NOT =>
      .ok (List.zipWith (fun u o => u && !o) universal operand, pos1 + 1)
    | _ => .ok (operand, pos1)
termination_by structural fuel _ _ _ _ => fuel

/-- `_parse_atom`: out of tokens raises `Unexpected end of expression`;
`(` parses a sub-`_parse_expression` and requires `)` as the very next
token (else `Missing closing parenthesis`); a token that is a key of
`masks` yields its vector; any other token raises `Unexpected token`. -/
def parse_atom : Nat → List Token → Nat → Masks → Mask → Except ParseError (Mask × Nat)
  | 0, _, _, _, _ => .error ParseError.OutOfFuel
  | fuel + 1, tokens, pos, masks, universal =>
    match tokens[pos]? with
    | none => .error ParseError.UnexpectedEndOfExpression
    | some Token.LPAREN => do
      let (result, pos1) ← parse_expression fuel tokens (pos + 1) masks universal
      match tokens[pos1]? with
      | some Token.RPAREN => .ok (result, pos1 + 1)
      | _ => .error ParseError.MissingClosingParenthesis
    | some (Token.SetRef c) =>
      match masks c with
      | some v => .ok (v, pos + 1)
      | none => .error (ParseError.UnexpectedToken (Token.SetRef c))
    | some t => .error (ParseError.UnexpectedToken t)
termination_by structural fuel _ _ _ _ => fuel

end

/-- Python's `str.strip()`: drop whitespace from both ends. -/
def strip (s : List Char) : List Char :=
  ((s.dropWhile Char.isWhitespace).reverse.dropWhile Char.isWhitespace).reverse

/-- `_safe_evaluate`: strip the expression, build the all-true
`universal_mask` over the `n`-point universe, tokenize, and run
`_parse_expression` from position `0`, returning only the result vector
(the final position is discarded, exactly as in the source). -/
def safe_evaluate (n : Nat) (masks : Masks) (expr : String) : Except ParseError Mask := do
  let chars := strip expr.data
  let universal : Mask := List.replicate n true
  let tokens ← tokenize chars
  let (result, _) ← parse_expression (8 * tokens.length + 8) tokens 0 masks universal
  pure result

/-- `evaluate_expression`, as the `Result`-returning contract of the spec:
an empty or whitespace-only formula returns the all-false vector over the
`n`-point universe; otherwise `_safe_evaluate` runs and any raised
`ValueError` surfaces as `Except.error`.  (The source's blanket
`except`-clause that prints and substitutes an all-false vector is the
caller-side display policy the spec places outside the core contract.)
The membership map is a parameter here; in the source it is rebuilt from
the current circle positions on each call. -/
def evaluate_expression (n : Nat) (masks : Masks) (expr : String) : Except ParseError Mask :=
  if expr.data.isEmpty || (strip expr.data).isEmpty then
    .ok (List.replicate n false)
  else
    safe_evaluate n masks expr

/-- A sample membership map over a two-point universe, used by concrete
witnesses: `A = [true, false]`, `B = [true, true]`, `C = [false, true]`. -/
def mW : Masks := fun c =>
  if c = 'A' then some [true, false]
  else if c = 'B' then some [true, true]
  else if c = 'C' then some [false, true]
  else none

/-- The everywhere-undefined membership map. -/
def mEmpty : Masks := fun _ => none

/-- `Except.ok a >>= f` reduces to `f a`. -/
theorem ok_bind {e a b : Type} (x : a) (f : a -> Except e b) :
    (Except.ok x : Except e a) >>= f = f x := rfl

/-- The parser consults the membership map only at `SetRef` tokens of its
token list: two maps agreeing on every set name occurring in the token
list give identical results at every grammar tier. -/
theorem parse_congr (m m' : Masks) :
    ∀ fuel : Nat, ∀ tokens : List Token,
      (∀ c, Token.SetRef c ∈ tokens → m c = m' c) →
      (∀ pos u, parse_expression fuel tokens pos m u = parse_expression fuel tokens pos m' u) ∧
      (∀ pos u, parse_or fuel tokens pos m u = parse_or fuel tokens pos m' u) ∧
      (∀ pos u left, or_loop fuel tokens pos m u left = or_loop fuel tokens pos m' u left) ∧
      (∀ pos u, parse_diff fuel tokens pos m u = parse_diff fuel tokens pos m' u) ∧
      (∀ pos u left, diff_loop fuel tokens pos m u left = diff_loop fuel tokens pos m' u left) ∧
      (∀ pos u, parse_xor fuel tokens pos m u = parse_xor fuel tokens pos m' u) ∧
      (∀ pos u left, xor_loop fuel tokens pos m u left = xor_loop fuel tokens pos m' u left) ∧
      (∀ pos u, parse_and fuel tokens pos m u = parse_and fuel tokens pos m' u) ∧
      (∀ pos u left, and_loop fuel tokens pos m u left = and_loop fuel tokens pos m' u left) ∧
      (∀ pos u, parse_not fuel tokens pos m u = parse_not fuel tokens pos m' u) ∧
      (∀ pos u, parse_atom fuel tokens pos m u = parse_atom fuel tokens pos m' u) := by
  intro fuel
  induction fuel with
  | zero =>
    intro tokens h
    exact ⟨fun _ _ => rfl, fun _ _ => rfl, fun _ _ _ => rfl, fun _ _ => rfl, fun _ _ _ => rfl,
      fun _ _ => rfl, fun _ _ _ => rfl, fun _ _ => rfl, fun _ _ _ => rfl, fun _ _ => rfl,
      fun _ _ => rfl⟩
  | succ f ih =>
    intro tokens h
    obtain ⟨h1, h2, h3, h4, h5, h6, h7, h8, h9, h10, h11⟩ := ih tokens h
    refine ⟨?_, ?_, ?_, ?_, ?_, ?_, ?_, ?_, ?_, ?_, ?_⟩
    · intro pos u
      simp only [parse_expression]
      exact h2 pos u
    · intro pos u
      simp only [parse_or]
      rw [h4 pos u]
      cases hd : parse_diff f tokens pos m' u with
      | error e => rfl
      | ok p =>
        obtain ⟨left, pos1⟩ := p
        exact h3 pos1 u left
    · intro pos u left
      cases hco : tokens[pos]? with
      | none => simp only [or_loop, hco]
      | some t =>
        cases t <;> simp only [or_loop, hco]
        rw [h4 (pos + 1) u]
        cases hd : parse_diff f tokens (pos + 1) m' u with
        | error e => rfl
        | ok p =>
          obtain ⟨right, pos1⟩ := p
          exact h3 pos1 u (List.zipWith (fun x y => x || y) left right)
    · intro pos u
      simp only [parse_diff]
      rw [h6 pos u]
      cases hd : parse_xor f tokens pos m' u with
      | error e => rfl
      | ok p =>
        obtain ⟨left, pos1⟩ := p
        exact h5 pos1 u left
    · intro pos u left
      cases hco : tokens[pos]? with
      | none => simp only [diff_loop, hco]
      | some t =>
        cases t <;> simp only [diff_loop, hco]
        rw [h6 (pos + 1) u]
        cases hd : parse_xor f tokens (pos + 1) m' u with
        | error e => rfl
        | ok p =>
          obtain ⟨right, pos1⟩ := p
          exact h5 pos1 u (List.zipWith (fun x y => x && !y) left right)
    · intro pos u
      simp only [parse_xor]
      rw [h8 pos u]
      cases hd : parse_and f tokens pos m' u with
      | error e => rfl
      | ok p =>
        obtain ⟨left, pos1⟩ := p
        exact h7 pos1 u left
    · intro pos u left
      cases hco : tokens[pos]? with
      | none => simp only [xor_loop, hco]
      | some t =>
        cases t <;> simp only [xor_loop, hco]
        rw [h8 (pos + 1) u]
        cases hd : parse_and f tokens (pos + 1) m' u with
        | error e => rfl
        | ok p =>
          obtain ⟨right, pos1⟩ := p
          exact h7 pos1 u (List.zipWith (fun x y => Bool.xor x y) left right)
    · intro pos u
      simp only [parse_and]
      rw [h10 pos u]
      cases hd : parse_not f tokens pos m' u with
      | error e => rfl
      | ok p =>
        obtain ⟨left, pos1⟩ := p
        exact h9 pos1 u left
    · intro pos u left
      cases hco : tokens[pos]? with
      | none => simp only [and_loop, hco]
      | some t =>
        cases t <;> simp only [and_loop, hco]
        rw [h10 (pos + 1) u]
        cases hd : parse_not f tokens (pos + 1) m' u with
        | error e => rfl
        | ok p =>
          obtain ⟨right, pos1⟩ := p
          exact h9 pos1 u (List.zipWith (fun x y => x && y) left right)
    · intro pos u
      simp only [parse_not]
      rw [h11 pos u]
    · intro pos u
      cases hco : tokens[pos]? with
      | none => simp only [parse_atom, hco]
      | some t =>
        cases t with
        | SetRef c =>
          simp only [parse_atom, hco]
          rw [h c (List.getElem?_mem hco)]
        | LPAREN =>
          simp only [parse_atom, hco]
          rw [h1 (pos + 1) u]
        | NOT => simp only [parse_atom, hco]
        | OR => simp only [parse_atom, hco]
        | AND => simp only [parse_atom, hco]
        | XOR => simp only [parse_atom, hco]
        | DIFF => simp only [parse_atom, hco]
        | RPAREN => simp only [parse_atom, hco]

/-- Congruence at the top level: two membership maps agreeing on every
set name occurring in the tokens of a formula evaluate it alike. -/
theorem evaluate_expression_congr (n : Nat) (m m' : Masks) (expr : String) (ts : List Token)
    (hts : tokenize (strip expr.data) = .ok ts)
    (h : ∀ c, Token.SetRef c ∈ ts → m c = m' c) :
    evaluate_expression n m expr = evaluate_expression n m' expr := by
  by_cases hc : (expr.data.isEmpty || (strip expr.data).isEmpty) = true
  · simp only [evaluate_expression, if_pos hc]
  · simp only [evaluate_expression, if_neg hc, safe_evaluate, hts, ok_bind]
    rw [(parse_congr m m' (8 * ts.length + 8) ts h).1 0 (List.replicate n true)]

/-- A membership map holding exactly the vectors `a`, `b`, `c` for the
set names `'A'`, `'B'`, `'C'`: the shape of the `masks` dict that
`evaluate_expression` builds from the three circles. -/
def std3 (a b c : Mask) : Masks := fun x =>
  if x = 'A' then some a else if x = 'B' then some b else if x = 'C' then some c else none

/-- The characters the tokenizer accepts: whitespace, the set names and
the operator and grouping symbols. -/
def recognizedChar (c : Char) : Prop :=
  c.isWhitespace = true ∨ c = 'A' ∨ c = 'B' ∨ c = 'C' ∨ c = '.' ∨ c = 'U' ∨
    c = '&' ∨ c = '^' ∨ c = '-' ∨ c = '(' ∨ c = ')'

instance : DecidablePred recognizedChar := fun c => by
  unfold recognizedChar
  infer_instance

/-- `universal & ~operand` over the `n`-point universe is the plain
elementwise complement of a vector of length `n`. -/
theorem zipWith_universal_complement (n : Nat) (a : List Bool) (h : a.length = n) :
    List.zipWith (fun u o => u && !o) (List.replicate n true) a = a.map (fun x => !x) := by
  induction a generalizing n with
  | nil =>
    simp only [List.length_nil] at h
    subst h
    rfl
  | cons x xs ih =>
    cases n with
    | zero => simp at h
    | succ k =>
      have hk : xs.length = k := by simpa using h
      simp [List.replicate_succ, ih k hk]

/-- A character outside the recognized alphabet makes the tokenizer fail
with `UnknownCharacter` carrying some such character (the first one). -/
theorem tokenize_unknown_character (cs : List Char) (h : ∃ c ∈ cs, ¬ recognizedChar c) :
    ∃ c ∈ cs, ¬ recognizedChar c ∧ tokenize cs = .error (ParseError.UnknownCharacter c) := by
  induction cs with
  | nil =>
    rcases h with ⟨c, hc, _⟩
    cases hc
  | cons c rest ih =>
    by_cases hrec : recognizedChar c
    · have hrest : ∃ d ∈ rest, ¬ recognizedChar d := by
        rcases h with ⟨d, hd, hbad⟩
        rcases List.mem_cons.mp hd with rfl | hd2
        · exact absurd hrec hbad
        · exact ⟨d, hd2, hbad⟩
      obtain ⟨d, hd, hbad, herr⟩ := ih hrest
      refine ⟨d, List.mem_cons_of_mem c hd, hbad, ?_⟩
      simp only [tokenize]
      split_ifs with hw hA hdot hU hamp hcar hdash hlp hrp
      · exact herr
      · rw [herr]; rfl
      · rw [herr]; rfl
      · rw [herr]; rfl
      · rw [herr]; rfl
      · rw [herr]; rfl
      · rw [herr]; rfl
      · rw [herr]; rfl
      · rw [herr]; rfl
      · exfalso
        rcases hrec with hx | hx | hx | hx | hx | hx | hx | hx | hx | hx | hx
        · exact hw hx
        · exact hA (by simp [hx])
        · exact hA (by simp [hx])
        · exact hA (by simp [hx])
        · exact hdot hx
        · exact hU hx
        · exact hamp hx
        · exact hcar hx
        · exact hdash hx
        · exact hlp hx
        · exact hrp hx
    · refine ⟨c, List.mem_cons_self c rest, hrec, ?_⟩
      have hb : ¬ (c.isWhitespace = true ∨ c = 'A' ∨ c = 'B' ∨ c = 'C' ∨ c = '.' ∨ c = 'U' ∨
          c = '&' ∨ c = '^' ∨ c = '-' ∨ c = '(' ∨ c = ')') := hrec
      push_neg at hb
      obtain ⟨hw, hA, hB, hC, hdot, hU, hamp, hcar, hdash, hlp, hrp⟩ := hb
      have hw2 : c.isWhitespace = false := by
        cases hx : c.isWhitespace
        · rfl
        · exact absurd hx hw
      simp [tokenize, hw2, hA, hB, hC, hdot, hU, hamp, hcar, hdash, hlp, hrp]

/-- A membership map defined only at `'A'` (value `[true]`), used by
concrete witnesses. -/
def mA1 : Masks := fun c => if c = 'A' then some [true] else none

/-- C1: the evaluator binds postfix-Not > And > Xor > Diff > Or — in
particular Diff binds tighter than Or (as the recursive-descent call
nesting dictates, contrary to the prose comment of
`_parse_expression`): for every membership map, `"A U B - C"` evaluates
to `A OR (B AND NOT C)` and `"A - B U C"` to `(A AND NOT B) OR C`. -/
theorem precedence_diff_before_or (n : Nat) (m : Masks) (a b c : List Bool)
    (ha : m 'A' = some a) (hb : m 'B' = some b) (hc : m 'C' = some c) :
    evaluate_expression n m "A U B - C" =
      .ok (List.zipWith (fun x y => x || y) a (List.zipWith (fun x y => x && !y) b c)) ∧
    evaluate_expression n m "A - B U C" =
      .ok (List.zipWith (fun x y => x || y) (List.zipWith (fun x y => x && !y) a b) c) := by
  constructor
  · have hagree : ∀ x, Token.SetRef x ∈ [Token.SetRef 'A', Token.OR, Token.SetRef 'B',
        Token.DIFF, Token.SetRef 'C'] → m x = std3 a b c x := by
      intro x hx
      simp at hx
      rcases hx with rfl | rfl | rfl
      · rw [ha]; rfl
      · rw [hb]; rfl
      · rw [hc]; rfl
    rw [evaluate_expression_congr n m (std3 a b c) "A U B - C"
      [Token.SetRef 'A', Token.OR, Token.SetRef 'B', Token.DIFF, Token.SetRef 'C'] rfl hagree]
    rfl
  · have hagree : ∀ x, Token.SetRef x ∈ [Token.SetRef 'A', Token.DIFF, Token.SetRef 'B',
        Token.OR, Token.SetRef 'C'] → m x = std3 a b c x := by
      intro x hx
      simp at hx
      rcases hx with rfl | rfl | rfl
      · rw [ha]; rfl
      · rw [hb]; rfl
      · rw [hc]; rfl
    rw [evaluate_expression_congr n m (std3 a b c) "A - B U C"
      [Token.SetRef 'A', Token.DIFF, Token.SetRef 'B', Token.OR, Token.SetRef 'C'] rfl hagree]
    rfl

/-- Witness for C1 at the concrete map `mW`. -/
theorem precedence_diff_before_or_witness :
    mW 'A' = some [true, false] ∧ mW 'B' = some [true, true] ∧ mW 'C' = some [false, true] ∧
    (evaluate_expression 2 mW "A U B - C" =
      .ok (List.zipWith (fun x y => x || y) [true, false]
        (List.zipWith (fun x y => x && !y) [true, true] [false, true])) ∧
    evaluate_expression 2 mW "A - B U C" =
      .ok (List.zipWith (fun x y => x || y)
        (List.zipWith (fun x y => x && !y) [true, false] [true, true]) [false, true])) :=
  ⟨rfl, rfl, rfl, precedence_diff_before_or 2 mW _ _ _ rfl rfl rfl⟩

/-- C2: on a membership map whose vectors share one length, `"A U B"`,
`"A & B"`, `"A ^ B"` and `"A - B"` evaluate to the elementwise OR, AND,
XOR and AND-NOT of the two vectors. -/
theorem binary_ops_elementwise (n : Nat) (m : Masks) (a b : List Bool)
    (ha : m 'A' = some a) (hb : m 'B' = some b) ( _hab : a.length = b.length) :
    evaluate_expression n m "A U B" = .ok (List.zipWith (fun x y => x || y) a b) ∧
    evaluate_expression n m "A & B" = .ok (List.zipWith (fun x y => x && y) a b) ∧
    evaluate_expression n m "A ^ B" = .ok (List.zipWith (fun x y => Bool.xor x y) a b) ∧
    evaluate_expression n m "A - B" = .ok (List.zipWith (fun x y => x && !y) a b) := by
  have hagree : ∀ (t : Token), (∀ y, t ≠ Token.SetRef y) →
      ∀ x, Token.SetRef x ∈ [Token.SetRef 'A', t, Token.SetRef 'B'] → m x = std3 a b [] x := by
    intro t hne x hx
    simp only [List.mem_cons, List.not_mem_nil, or_false] at hx
    rcases hx with hx | hx | hx
    · obtain rfl : x = 'A' := by
        injection hx
      rw [ha]; rfl
    · exact absurd hx.symm (hne x)
    · obtain rfl : x = 'B' := by
        injection hx
      rw [hb]; rfl
  refine ⟨?_, ?_, ?_, ?_⟩
  · rw [evaluate_expression_congr n m (std3 a b []) "A U B"
      [Token.SetRef 'A', Token.OR, Token.SetRef 'B'] rfl
      (hagree Token.OR (fun y h => by cases h))]
    rfl
  · rw [evaluate_expression_congr n m (std3 a b []) "A & B"
      [Token.SetRef 'A', Token.AND, Token.SetRef 'B'] rfl
      (hagree Token.AND (fun y h => by cases h))]
    rfl
  · rw [evaluate_expression_congr n m (std3 a b []) "A ^ B"
      [Token.SetRef 'A', Token.XOR, Token.SetRef 'B'] rfl
      (hagree Token.XOR (fun y h => by cases h))]
    rfl
  · rw [evaluate_expression_congr n m (std3 a b []) "A - B"
      [Token.SetRef 'A', Token.DIFF, Token.SetRef 'B'] rfl
      (hagree Token.DIFF (fun y h => by cases h))]
    rfl

/-- Witness for C2 at the concrete map `mW`. -/
theorem binary_ops_elementwise_witness :
    mW 'A' = some [true, false] ∧ mW 'B' = some [true, true] ∧
    (([true, false] : List Bool).length = ([true, true] : List Bool).length) ∧
    (evaluate_expression 2 mW "A U B" =
      .ok (List.zipWith (fun x y => x || y) [true, false] [true, true]) ∧
    evaluate_expression 2 mW "A & B" =
      .ok (List.zipWith (fun x y => x && y) [true, false] [true, true]) ∧
    evaluate_expression 2 mW "A ^ B" =
      .ok (List.zipWith (fun x y => Bool.xor x y) [true, false] [true, true]) ∧
    evaluate_expression 2 mW "A - B" =
      .ok (List.zipWith (fun x y => x && !y) [true, false] [true, true])) :=
  ⟨rfl, rfl, rfl, binary_ops_elementwise 2 mW _ _ rfl rfl rfl⟩

/-- C3: the postfix `.` applies once to its atom and computes
`UNIVERSAL AND (NOT operand)` with `UNIVERSAL` the all-true vector over
the universe, which on a vector of the universe length is plain
elementwise complementation: `"A."` evaluates to the complement of
`"A"`. -/
theorem postfix_not_complement (n : Nat) (m : Masks) (a : List Bool)
    (ha : m 'A' = some a) (hlen : a.length = n) :
    evaluate_expression n m "A." = .ok (a.map (fun x => !x)) ∧
    evaluate_expression n m "A" = .ok a := by
  constructor
  · have hagree : ∀ x, Token.SetRef x ∈ [Token.SetRef 'A', Token.NOT] →
        m x = std3 a [] [] x := by
      intro x hx
      simp at hx
      subst hx
      rw [ha]; rfl
    rw [evaluate_expression_congr n m (std3 a [] []) "A."
      [Token.SetRef 'A', Token.NOT] rfl hagree]
    rw [← zipWith_universal_complement n a hlen]
    rfl
  · have hagree : ∀ x, Token.SetRef x ∈ [Token.SetRef 'A'] → m x = std3 a [] [] x := by
      intro x hx
      simp at hx
      subst hx
      rw [ha]; rfl
    rw [evaluate_expression_congr n m (std3 a [] []) "A" [Token.SetRef 'A'] rfl hagree]
    rfl

/-- Witness for C3 at the concrete map `mW`. -/
theorem postfix_not_complement_witness :
    mW 'A' = some [true, false] ∧ ([true, false] : List Bool).length = 2 ∧
    (evaluate_expression 2 mW "A." = .ok (([true, false] : List Bool).map (fun x => !x)) ∧
    evaluate_expression 2 mW "A" = .ok [true, false]) :=
  ⟨rfl, rfl, postfix_not_complement 2 mW _ rfl rfl⟩

/-- C4 counterexample: `"A.."` does NOT fail — `_parse_not` consumes one
postfix `NOT`, every tier then stops in front of the second `NOT`, and
`_safe_evaluate` discards the unconsumed remainder, so evaluation
succeeds with the complement of `A` (here `A = [true, false]` under
`mW`, giving `[false, true]`), refuting the claim that it is rejected. -/
theorem double_not_accepted_counterexample :
    evaluate_expression 2 mW "A.." = .ok [false, true] := rfl

/-- C4 (amended): evaluating `"A.."` does not fail: the parser applies
the postfix Not once, silently discards the second `NOT` token, and
returns the complement of `A`. -/
theorem double_not_silently_discarded (n : Nat) (m : Masks) (a : List Bool)
    (ha : m 'A' = some a) (hlen : a.length = n) :
    evaluate_expression n m "A.." = .ok (a.map (fun x => !x)) := by
  have hagree : ∀ x, Token.SetRef x ∈ [Token.SetRef 'A', Token.NOT, Token.NOT] →
      m x = std3 a [] [] x := by
    intro x hx
    simp at hx
    subst hx
    rw [ha]; rfl
  rw [evaluate_expression_congr n m (std3 a [] []) "A.."
    [Token.SetRef 'A', Token.NOT, Token.NOT] rfl hagree]
  rw [← zipWith_universal_complement n a hlen]
  rfl

/-- Witness for the amended C4 at the concrete map `mW`. -/
theorem double_not_silently_discarded_witness :
    mW 'A' = some [true, false] ∧ ([true, false] : List Bool).length = 2 ∧
    evaluate_expression 2 mW "A.." = .ok (([true, false] : List Bool).map (fun x => !x)) :=
  ⟨rfl, rfl, double_not_silently_discarded 2 mW _ rfl rfl⟩

/-- C5: the parser never checks that the whole token stream was
consumed: `_safe_evaluate` discards the final position, so a formula
whose tokens begin with a well-formed expression followed by extra
tokens that cannot extend it (such as `"A B"`, `"A )"`) evaluates to the
leading expression and silently ignores the remainder; in general,
whenever the leading parse succeeds, `_safe_evaluate` returns its value
no matter how many tokens remain. -/
theorem trailing_tokens_discarded (n : Nat) (m : Masks) (a : List Bool)
    (ha : m 'A' = some a) :
    evaluate_expression n m "A B" = .ok a ∧
    evaluate_expression n m "A )" = .ok a ∧
    (∀ (expr : String) (ts : List Token) (v : Mask) (p : Nat),
      tokenize (strip expr.data) = .ok ts →
      parse_expression (8 * ts.length + 8) ts 0 m (List.replicate n true) = .ok (v, p) →
      safe_evaluate n m expr = .ok v) := by
  refine ⟨?_, ?_, ?_⟩
  · have hagree : ∀ x, Token.SetRef x ∈ [Token.SetRef 'A', Token.SetRef 'B'] →
        m x = (fun y => if y = 'A' then some a else m y) x := by
      intro x hx
      simp at hx
      rcases hx with rfl | rfl
      · rw [ha]; rfl
      · rfl
    rw [evaluate_expression_congr n m (fun y => if y = 'A' then some a else m y) "A B"
      [Token.SetRef 'A', Token.SetRef 'B'] rfl hagree]
    rfl
  · have hagree : ∀ x, Token.SetRef x ∈ [Token.SetRef 'A', Token.RPAREN] →
        m x = std3 a [] [] x := by
      intro x hx
      simp at hx
      subst hx
      rw [ha]; rfl
    rw [evaluate_expression_congr n m (std3 a [] []) "A )"
      [Token.SetRef 'A', Token.RPAREN] rfl hagree]
    rfl
  · intro expr ts v p hts hp
    simp only [safe_evaluate, hts, ok_bind]
    rw [hp]
    rfl

/-- Witness for C5 at the concrete map `mW`. -/
theorem trailing_tokens_discarded_witness :
    mW 'A' = some [true, false] ∧
    (evaluate_expression 2 mW "A B" = .ok [true, false] ∧
    evaluate_expression 2 mW "A )" = .ok [true, false] ∧
    (∀ (expr : String) (ts : List Token) (v : Mask) (p : Nat),
      tokenize (strip expr.data) = .ok ts →
      parse_expression (8 * ts.length + 8) ts 0 mW (List.replicate 2 true) = .ok (v, p) →
      safe_evaluate 2 mW expr = .ok v)) :=
  ⟨rfl, trailing_tokens_discarded 2 mW _ rfl⟩

/-- C6 counterexample: a set name with no entry in the membership map
does NOT fail with a distinct `UnknownSet` error: `_parse_atom` raises
the very same `Unexpected token` error that a stray operator at atom
position raises (the source has no `UnknownSet` error at all). -/
theorem unknown_set_counterexample :
    evaluate_expression 1 mEmpty "A" = .error (ParseError.UnexpectedToken (Token.SetRef 'A')) ∧
    evaluate_expression 1 mEmpty "U" = .error (ParseError.UnexpectedToken Token.OR) :=
  ⟨rfl, rfl⟩

/-- C6 (amended): a `SetRef` token resolves to the corresponding vector
of the membership map, and a set name with no entry fails — but with the
same `UnexpectedToken` error that an operator at atom position produces,
not a distinct `UnknownSet` error. -/
theorem unknown_set_is_unexpected_token (n : Nat) (m : Masks) (a : List Bool)
    (ha : m 'A' = some a) (hb : m 'B' = none) :
    evaluate_expression n m "A" = .ok a ∧
    evaluate_expression n m "B" = .error (ParseError.UnexpectedToken (Token.SetRef 'B')) ∧
    evaluate_expression n m "U" = .error (ParseError.UnexpectedToken Token.OR) := by
  refine ⟨?_, ?_, ?_⟩
  · have hagree : ∀ x, Token.SetRef x ∈ [Token.SetRef 'A'] → m x = std3 a [] [] x := by
      intro x hx
      simp at hx
      subst hx
      rw [ha]; rfl
    rw [evaluate_expression_congr n m (std3 a [] []) "A" [Token.SetRef 'A'] rfl hagree]
    rfl
  · have hagree : ∀ x, Token.SetRef x ∈ [Token.SetRef 'B'] → m x = mEmpty x := by
      intro x hx
      simp at hx
      subst hx
      rw [hb]; rfl
    rw [evaluate_expression_congr n m mEmpty "B" [Token.SetRef 'B'] rfl hagree]
    rfl
  · have hagree : ∀ x, Token.SetRef x ∈ [Token.OR] → m x = mEmpty x := by
      intro x hx
      simp at hx
    rw [evaluate_expression_congr n m mEmpty "U" [Token.OR] rfl hagree]
    rfl

/-- Witness for the amended C6 at the concrete map `mA1`. -/
theorem unknown_set_is_unexpected_token_witness :
    mA1 'A' = some [true] ∧ mA1 'B' = none ∧
    (evaluate_expression 1 mA1 "A" = .ok [true] ∧
    evaluate_expression 1 mA1 "B" = .error (ParseError.UnexpectedToken (Token.SetRef 'B')) ∧
    evaluate_expression 1 mA1 "U" = .error (ParseError.UnexpectedToken Token.OR)) :=
  ⟨rfl, rfl, unknown_set_is_unexpected_token 1 mA1 _ rfl rfl⟩

/-- C7 counterexample: the `Unknown character` error does NOT carry the
position of the offending character: `"#"` (offending position 0) and
`"A U B #"` (offending position 6) raise the very same error value,
carrying only the character. -/
theorem unknown_character_no_position_counterexample :
    tokenize ("#".data) = .error (ParseError.UnknownCharacter '#') ∧
    tokenize ("A U B #".data) = .error (ParseError.UnknownCharacter '#') ∧
    tokenize ("#".data) = tokenize ("A U B #".data) :=
  ⟨rfl, rfl, rfl⟩

/-- C7 (amended): a formula containing a non-whitespace character
outside the recognized alphabet fails tokenization with an
`UnknownCharacter` error carrying the offending character (but no
position), and evaluation returns the error, never a partial vector
(shown for the specification example `"A U B #"`). -/
theorem unknown_character_rejected (n : Nat) (m : Masks) (cs : List Char)
    (h : ∃ c ∈ cs, ¬ recognizedChar c) :
    (∃ c ∈ cs, ¬ recognizedChar c ∧ tokenize cs = .error (ParseError.UnknownCharacter c)) ∧
    evaluate_expression n m "A U B #" = .error (ParseError.UnknownCharacter '#') := by
  refine ⟨tokenize_unknown_character cs h, ?_⟩
  rfl

/-- Witness for the amended C7 on the character list of `"A U B #"`. -/
theorem unknown_character_rejected_witness :
    (∃ c ∈ ("A U B #".data), ¬ recognizedChar c) ∧
    ((∃ c ∈ ("A U B #".data), ¬ recognizedChar c ∧
      tokenize ("A U B #".data) = .error (ParseError.UnknownCharacter c)) ∧
    evaluate_expression 2 mW "A U B #" = .error (ParseError.UnknownCharacter '#')) :=
  ⟨by decide, unknown_character_rejected 2 mW ("A U B #".data) (by decide)⟩

/-- C8: a token stream that ends before a required token fails:
a trailing binary operator (`"A U"`) with `Unexpected end of expression`
(the specification name is `UnexpectedEndOfInput`), an unmatched open
parenthesis (`"(A U B"`) with `Missing closing parenthesis` (the
specification name is `UnclosedParenthesis`); no vector is returned. -/
theorem truncated_input_rejected (n : Nat) (m : Masks) (a b : List Bool)
    (ha : m 'A' = some a) (hb : m 'B' = some b) :
    evaluate_expression n m "A U" = .error ParseError.UnexpectedEndOfExpression ∧
    evaluate_expression n m "(A U B" = .error ParseError.MissingClosingParenthesis := by
  constructor
  · have hagree : ∀ x, Token.SetRef x ∈ [Token.SetRef 'A', Token.OR] →
        m x = std3 a b [] x := by
      intro x hx
      simp at hx
      subst hx
      rw [ha]; rfl
    rw [evaluate_expression_congr n m (std3 a b []) "A U"
      [Token.SetRef 'A', Token.OR] rfl hagree]
    rfl
  · have hagree : ∀ x, Token.SetRef x ∈ [Token.LPAREN, Token.SetRef 'A', Token.OR,
        Token.SetRef 'B'] → m x = std3 a b [] x := by
      intro x hx
      simp at hx
      rcases hx with rfl | rfl
      · rw [ha]; rfl
      · rw [hb]; rfl
    rw [evaluate_expression_congr n m (std3 a b []) "(A U B"
      [Token.LPAREN, Token.SetRef 'A', Token.OR, Token.SetRef 'B'] rfl hagree]
    rfl

/-- Witness for C8 at the concrete map `mW`. -/
theorem truncated_input_rejected_witness :
    mW 'A' = some [true, false] ∧ mW 'B' = some [true, true] ∧
    (evaluate_expression 2 mW "A U" = .error ParseError.UnexpectedEndOfExpression ∧
    evaluate_expression 2 mW "(A U B" = .error ParseError.MissingClosingParenthesis) :=
  ⟨rfl, rfl, truncated_input_rejected 2 mW _ _ rfl rfl⟩

/-- C9: an empty or whitespace-only formula is not an error: it returns
the all-false vector over the universe length, for every membership
map. -/
theorem empty_formula_all_false (n : Nat) (m : Masks) :
    evaluate_expression n m "" = .ok (List.replicate n false) ∧
    evaluate_expression n m "   " = .ok (List.replicate n false) :=
  ⟨rfl, rfl⟩

/-- C10: parenthesized grouping overrides the default precedence: there
is a membership map on which `"(A U B) & C"` and `"A U (B & C)"`
evaluate differently. -/
theorem parenthesization_overrides_precedence :
    ∃ m : Masks, evaluate_expression 2 m "(A U B) & C" ≠ evaluate_expression 2 m "A U (B & C)" := by
  refine ⟨mW, ?_⟩
  rw [show evaluate_expression 2 mW "(A U B) & C" = Except.ok [false, true] from rfl]
  rw [show evaluate_expression 2 mW "A U (B & C)" = Except.ok [true, true] from rfl]
  simp

end EulerRings
